import Mathlib

/-!
# Verification of the `edan` index-construction and contribution engine

Shallow embedding of the numerical core of the `edan` repository:

* `edan/indices.py` — the index-formula constructors (Paasche, Laspeyres,
  Fisher, Carli, Dutot, Jevons, harmonic mean, CSWD) and the `_IndexRebaser`;
* `edan/nipa/aggr.py` — the `ChainWeighter` aggregate chain-weighting and
  the quantity-index computation;
* `edan/nipa/features.py` — the real-growth and price contribution engines.

Period data is embedded as lists of rows (one row per period, one entry per
basket item).  Exact computations on rational inputs are embedded over `ℚ`
(or `ℝ` where the source takes square roots).  Where IEEE-754 behaviour of
the source is itself at issue (silent infinities from `np.true_divide`,
NaN propagation), values are embedded in the `EFloat` domain, which carries
`inf`, `ninf` and `nan` alongside exact finite rationals.
-/

/-! ## Generic list helpers mirroring the numpy operations used -/

/-- `np.sum(np.multiply(xs, ys))`: the dot product of two aligned rows. -/
def sumProd {α : Type} [Mul α] [AddMonoid α] (xs ys : List α) : α :=
  (List.zipWith (· * ·) xs ys).sum

/-- `np.mean`: the arithmetic mean of a list (division by the length). -/
def listMean {α : Type} [DivisionRing α] (xs : List α) : α :=
  xs.sum / (xs.length : α)

/-- Auxiliary accumulator for `cumprod`, multiplying from the left exactly as
the sequential numpy accumulation does. -/
def cumprodAux {α : Type} [Mul α] (acc : α) : List α → List α
  | [] => []
  | x :: xs => (acc * x) :: cumprodAux (acc * x) xs

/-- `np.cumprod`: running products of a list, left-associated. -/
def cumprod {α : Type} [Mul α] : List α → List α
  | [] => []
  | x :: xs => x :: cumprodAux x xs

/-- `xs[mask]` for a boolean mask: the entries of `xs` at `true` positions. -/
def selectMask {α : Type} (mask : List Bool) (xs : List α) : List α :=
  (mask.zip xs).filterMap (fun p => if p.1 then some p.2 else none)

/-- Consecutive-period pairs `(row_{t-1}, row_t)`, as produced by indexing a
numpy array with `arr[:-1]` and `arr[1:]`. -/
def adjacentRows {α : Type} (rows : List α) : List (α × α) :=
  rows.zip rows.tail

/-! ## Periods and the `_IndexRebaser` (`edan/indices.py`, lines 1481–1523)

A period of the `DatetimeIndex` is embedded as a calendar year together with
a sub-year position; the source only ever inspects `.year` (for an integer
base) or full equality (for a timestamp base). -/

structure Period where
  year : Int
  sub : Nat
deriving DecidableEq, Repr

/-- The `base` argument of `_IndexRebaser`: either a whole calendar year
(`isinstance(base, int)`) or a single timestamp. -/
inductive BasePeriod where
  | year (y : Int)
  | stamp (p : Period)
deriving DecidableEq, Repr

/-- Whether an observation period falls in the base period: the source tests
`(index.year >= base) & (index.year <= base)` for an integer base — i.e.
year equality — and `index == base` for a timestamp base. -/
def baseMatches : BasePeriod → Period → Bool
  | .year y, p => p.year == y
  | .stamp b, p => p == b

/-- The `ValueError` message of `_IndexRebaser.locate_base_periods`, which
names the base year/period that had no matching observations. -/
def noBaseMsg : BasePeriod → String
  | .year y => "cannot locate base period. no data in year " ++ toString y
  | .stamp p => "cannot locate base period. no data in " ++ toString p.year ++ "." ++ toString p.sub

/-- `_IndexRebaser.locate_base_periods`: the boolean indicator array of
observations in the base period; raises `ValueError` (embedded as
`Except.error`) when no observation matches. -/
def locate_base_periods (base : BasePeriod) (index : List Period) :
    Except String (List Bool) :=
  let idx := index.map (baseMatches base)
  if idx.any id then .ok idx else .error (noBaseMsg base)

/-! ## Unweighted index constructors over exact rationals

Each chained constructor computes one link relative per consecutive period
pair from the ratio matrix `arr[1:] / arr[:-1]`. -/

/-- `_CarliIndexConstructor.compute`, chained branch, link relatives:
`np.mean(arr[1:] / arr[:-1], axis=1)`. -/
def carliChainLinks (rows : List (List ℚ)) : List ℚ :=
  (adjacentRows rows).map (fun rr =>
    listMean (List.zipWith (· / ·) rr.2 rr.1))

/-- `_HarmonicMeanIndexConstructor.compute`, chained branch, link relatives:
`1 / np.mean(arr[:-1] / arr[1:], axis=1)`. -/
def harmonicMeanChainLinks (rows : List (List ℚ)) : List ℚ :=
  (adjacentRows rows).map (fun rr =>
    1 / listMean (List.zipWith (· / ·) rr.1 rr.2))

/-- `_DutotIndexConstructor.compute`, chained branch, link relatives:
`np.sum(arr[1:], axis=1) / np.sum(arr[:-1], axis=1)`. -/
def dutotChainLinks (rows : List (List ℚ)) : List ℚ :=
  (adjacentRows rows).map (fun rr => rr.2.sum / rr.1.sum)

/-- The column count `arr.shape[1]` of the embedded data matrix. -/
def numCols (rows : List (List ℚ)) : Nat := (rows.headD []).length

/-- `_JevonsIndexConstructor.compute`, chained branch, link relatives:
`np.power(np.prod(arr[1:] / arr[:-1], axis=1), arr.shape[1])` — the product
of the item relatives raised to the *power* of the column count (sic). -/
def jevonsChainLinks (rows : List (List ℚ)) : List ℚ :=
  (adjacentRows rows).map (fun rr =>
    (List.zipWith (· / ·) rr.2 rr.1).prod ^ numCols rows)

/-- `_CSWDIndexConstructor.compute`, chained branch, pre-sqrt link values:
`carli_links / harmmean_links` where `carli_links` is the *sum* of the item
relatives and `harmmean_links` the sum of their reciprocals. -/
def cswdChainLinks (rows : List (List ℚ)) : List ℚ :=
  (adjacentRows rows).map (fun rr =>
    let terms := List.zipWith (· / ·) rr.2 rr.1
    terms.sum / (terms.map (1 / ·)).sum)

/-! ### Direct (fixed-base) branches of the unweighted constructors

Direct mode first resolves the base rows via `locate_base_periods`, averages
them column-wise (`np.mean(arr[idx, :], axis=0)`), then compares every
period to that base vector. -/

/-- `np.mean(arr[idx, :], axis=0)`: column means of the base-period rows. -/
def colMeans (rows : List (List ℚ)) (n : Nat) : List ℚ :=
  (List.range n).map (fun j =>
    listMean (rows.map (fun r => r.getD j 0)))

/-- `_CarliIndexConstructor.compute`, direct branch:
`100 * np.mean(arr / base, axis=1)`. -/
def carliDirect (rows : List (List ℚ)) (index : List Period)
    (base : BasePeriod) : Except String (List ℚ) :=
  match locate_base_periods base index with
  | .error e => .error e
  | .ok mask =>
    let bvec := colMeans (selectMask mask rows) (numCols rows)
    .ok (rows.map (fun r => 100 * listMean (List.zipWith (· / ·) r bvec)))

/-- `_HarmonicMeanIndexConstructor.compute`, direct branch:
`100 * (1 / np.mean(base / arr, axis=1))`. -/
def harmonicMeanDirect (rows : List (List ℚ)) (index : List Period)
    (base : BasePeriod) : Except String (List ℚ) :=
  match locate_base_periods base index with
  | .error e => .error e
  | .ok mask =>
    let bvec := colMeans (selectMask mask rows) (numCols rows)
    .ok (rows.map (fun r => 100 * (1 / listMean (List.zipWith (· / ·) bvec r))))

/-- `_CSWDIndexConstructor.compute`, direct branch:
`100 * (np.sum(arr / base, axis=1) / np.sum(np.reciprocal(arr / base), axis=1))`
— note: no square root is taken in this branch. -/
def cswdDirect (rows : List (List ℚ)) (index : List Period)
    (base : BasePeriod) : Except String (List ℚ) :=
  match locate_base_periods base index with
  | .error e => .error e
  | .ok mask =>
    let bvec := colMeans (selectMask mask rows) (numCols rows)
    .ok (rows.map (fun r =>
      let terms := List.zipWith (· / ·) r bvec
      100 * (terms.sum / (terms.map (1 / ·)).sum)))

/-! ## An exact model of the IEEE-754 values numpy produces

The source never guards a division: `np.true_divide` silently yields
`±inf` for `x/0` with `x ≠ 0`, `nan` for `0/0`, and propagates them through
subsequent arithmetic, emitting only a `RuntimeWarning`.  `EFloat` carries
exact rationals together with the three non-finite values, with the
arithmetic numpy applies to them. -/

inductive EFloat where
  | finite (q : ℚ)
  | inf
  | ninf
  | nan
deriving DecidableEq, Repr

namespace EFloat

/-- `np.true_divide` on two finite operands. -/
def trueDivide (a b : ℚ) : EFloat :=
  if b = 0 then
    if a = 0 then .nan else if 0 < a then .inf else .ninf
  else .finite (a / b)

/-- IEEE-754 multiplication on the extended domain. -/
def mul : EFloat → EFloat → EFloat
  | finite a, finite b => finite (a * b)
  | finite a, inf => if a = 0 then nan else if 0 < a then inf else ninf
  | inf, finite a => if a = 0 then nan else if 0 < a then inf else ninf
  | finite a, ninf => if a = 0 then nan else if 0 < a then ninf else inf
  | ninf, finite a => if a = 0 then nan else if 0 < a then ninf else inf
  | inf, inf => inf
  | inf, ninf => ninf
  | ninf, inf => ninf
  | ninf, ninf => inf
  | nan, _ => nan
  | _, nan => nan

/-- IEEE-754 addition on the extended domain. -/
def add : EFloat → EFloat → EFloat
  | finite a, finite b => finite (a + b)
  | finite _, inf => inf
  | inf, finite _ => inf
  | finite _, ninf => ninf
  | ninf, finite _ => ninf
  | inf, inf => inf
  | ninf, ninf => ninf
  | inf, ninf => nan
  | ninf, inf => nan
  | nan, _ => nan
  | _, nan => nan

/-- IEEE-754 negation. -/
def neg : EFloat → EFloat
  | finite a => finite (-a)
  | inf => ninf
  | ninf => inf
  | nan => nan

/-- IEEE-754 subtraction. -/
def sub (a b : EFloat) : EFloat := add a (neg b)

/-- IEEE-754 division on the extended domain (a zero denominator behaves as
positive zero, as numpy float arrays do). -/
def div : EFloat → EFloat → EFloat
  | finite a, finite b => trueDivide a b
  | finite _, inf => finite 0
  | finite _, ninf => finite 0
  | inf, finite b => if b < 0 then ninf else inf
  | ninf, finite b => if b < 0 then inf else ninf
  | inf, inf => nan
  | inf, ninf => nan
  | ninf, inf => nan
  | ninf, ninf => nan
  | nan, _ => nan
  | _, nan => nan

instance : Mul EFloat := ⟨mul⟩

/-- `np.sum` of a list of extended floats. -/
def esum (xs : List EFloat) : EFloat := xs.foldl add (finite 0)

/-- `np.mean` of a list of extended floats. -/
def emean (xs : List EFloat) : EFloat := div (esum xs) (finite (xs.length : ℚ))

end EFloat

/-- `_DutotIndexConstructor.compute`, chained branch, start to finish over
the extended-float domain: link relatives `Σ arr[1:] / Σ arr[:-1]` through
`np.true_divide` (no zero-denominator guard), the running product with a
leading `1`, then the rebasing `100 * (series / mean(series[base]))`.  The
only raise on this path is `locate_base_periods`. -/
def dutotChainedE (rows : List (List ℚ)) (index : List Period)
    (base : BasePeriod) : Except String (List EFloat) :=
  let links := (adjacentRows rows).map (fun rr => EFloat.trueDivide rr.2.sum rr.1.sum)
  let chain := cumprod (EFloat.finite 1 :: links)
  match locate_base_periods base index with
  | .error e => .error e
  | .ok mask =>
    let scale := EFloat.emean (selectMask mask chain)
    .ok (chain.map (fun x => EFloat.mul (.finite 100) (EFloat.div x scale)))

/-! ## Weighted chained constructors (`mtype='price'`) over `ℝ`

Each consecutive-period pair contributes the four dot products
`Σ p_t·q_t`, `Σ p_{t-1}·q_t`, `Σ p_t·q_{t-1}`, `Σ p_{t-1}·q_{t-1}`. -/

/-- `_PaascheIndexConstructor.compute`, chained branch, price mtype, link
relatives: `Σ(p_t·q_t) / Σ(p_{t-1}·q_t)`. -/
noncomputable def paascheChainLinks (price quantity : List (List ℝ)) : List ℝ :=
  List.zipWith (fun pp qq => sumProd pp.2 qq.2 / sumProd pp.1 qq.2)
    (adjacentRows price) (adjacentRows quantity)

/-- `_LaspeyresIndexConstructor.compute`, chained branch, price mtype, link
relatives: `Σ(p_t·q_{t-1}) / Σ(p_{t-1}·q_{t-1})`. -/
noncomputable def laspeyresChainLinks (price quantity : List (List ℝ)) : List ℝ :=
  List.zipWith (fun pp qq => sumProd pp.2 qq.1 / sumProd pp.1 qq.1)
    (adjacentRows price) (adjacentRows quantity)

/-- `_FisherIndexConstructor.compute`, chained branch, price mtype, link
relatives: `sqrt(paasche * laspeyres)` with
`paasche = Σ(p_t·q_t)/Σ(p_{t-1}·q_t)` and
`laspeyres = Σ(p_t·q_{t-1})/Σ(p_{t-1}·q_{t-1})`. -/
noncomputable def fisherChainLinks (price quantity : List (List ℝ)) : List ℝ :=
  List.zipWith (fun pp qq =>
      Real.sqrt ((sumProd pp.2 qq.2 / sumProd pp.1 qq.2) *
                 (sumProd pp.2 qq.1 / sumProd pp.1 qq.1)))
    (adjacentRows price) (adjacentRows quantity)

/-! ## `ChainWeighter` (`edan/nipa/aggr.py`, lines 103–251)

The inputs are the aligned real-level and price-index matrices produced by
`_set_ctypes_and_data` (one row per period, one column per subcomponent),
together with the year of each period row. -/

/-- `ChainWeighter._compute_chained_weights`: per-period chain weights.
`weights[0] = 1` and for `t > 0`
`weights[t] = sqrt(paasche_t * laspeyres_t)` where the source computes
`paasche = Σ(real_t·price_t) / Σ(real_{t-1}·price_t)` (the quantity-form
Paasche relative) and
`laspeyres = Σ(real_t·price_{t-1}) / Σ(real_{t-1}·price_{t-1})` (the
quantity-form Laspeyres relative). -/
noncomputable def compute_chained_weights (real price : List (List ℝ)) : List ℝ :=
  1 :: List.zipWith (fun rr pp =>
      Real.sqrt ((sumProd rr.2 pp.2 / sumProd rr.1 pp.2) *
                 (sumProd rr.2 pp.1 / sumProd rr.1 pp.1)))
    (adjacentRows real) (adjacentRows price)

/-- The chain-weight formula asserted by the specification (§4.3 step 2):
`Paasche_t = Σ(real_t·price_t) / Σ(real_t·price_{t-1})` and
`Laspeyres_t = Σ(real_{t-1}·price_t) / Σ(real_{t-1}·price_{t-1})`,
`weight_t = sqrt(Paasche_t·Laspeyres_t)`, `weight_0 = 1`.  Stated from the
spec text, to be compared with `compute_chained_weights`. -/
noncomputable def specChainedWeights (real price : List (List ℝ)) : List ℝ :=
  1 :: List.zipWith (fun rr pp =>
      Real.sqrt ((sumProd rr.2 pp.2 / sumProd rr.2 pp.1) *
                 (sumProd rr.1 pp.2 / sumProd rr.1 pp.1)))
    (adjacentRows real) (adjacentRows price)

/-- `ChainWeighter._chain`: chains the weights together and anchors the path
to the average aggregate real level in the hard-coded base year 2012.  The
`years` list is `self.real.index.year`. -/
noncomputable def chainWeighterChain (years : List Int) (real : List (List ℝ))
    (weights : List ℝ) : List ℝ :=
  let baseLocs := years.map (· == (2012 : Int))
  let realBase := listMean ((selectMask baseLocs real).map List.sum)
  let weightPath := cumprod weights
  let weightBase := listMean (selectMask baseLocs weightPath)
  weightPath.map (· * (realBase / weightBase))

/-- `ChainWeighter._chain` generalized over the base year: identical body
with the literal `2012` replaced by a parameter, used to state that no
argument of the source can select a different base year. -/
noncomputable def chainWeighterChainAt (baseYear : Int) (years : List Int)
    (real : List (List ℝ)) (weights : List ℝ) : List ℝ :=
  let baseLocs := years.map (· == baseYear)
  let realBase := listMean ((selectMask baseLocs real).map List.sum)
  let weightPath := cumprod weights
  let weightBase := listMean (selectMask baseLocs weightPath)
  weightPath.map (· * (realBase / weightBase))

/-- `compute_real_level` / `ChainWeighter.compute`: chained weights from the
aligned data, then the anchored chain path. -/
noncomputable def compute_real_level (years : List Int) (real price : List (List ℝ)) : List ℝ :=
  chainWeighterChain years real (compute_chained_weights real price)

/-- `compute_real_level` generalized over the base year. -/
noncomputable def compute_real_level_at (baseYear : Int) (years : List Int)
    (real price : List (List ℝ)) : List ℝ :=
  chainWeighterChainAt baseYear years real (compute_chained_weights real price)

/-- `compute_quantity_index` (`edan/nipa/aggr.py`, lines 232–250): compounds
period-over-period changes of `nominal/price` and rebases to 100 in the
hard-coded base year 2012. -/
noncomputable def compute_quantity_index (years : List Int) (nominal price : List ℝ) : List ℝ :=
  let nomPrice := List.zipWith (· / ·) nominal price
  let changes := List.zipWith (· / ·) nomPrice.tail nomPrice
  let quant := 100 :: (cumprod changes).map (100 * ·)
  let baseLocs := years.map (· == (2012 : Int))
  let m := listMean (selectMask baseLocs quant)
  quant.map (fun q => 100 * (q / m))

/-- `compute_quantity_index` generalized over the base year: identical body
with the literal `2012` replaced by a parameter. -/
noncomputable def compute_quantity_index_at (baseYear : Int) (years : List Int)
    (nominal price : List ℝ) : List ℝ :=
  let nomPrice := List.zipWith (· / ·) nominal price
  let changes := List.zipWith (· / ·) nomPrice.tail nomPrice
  let quant := 100 :: (cumprod changes).map (100 * ·)
  let baseLocs := years.map (· == baseYear)
  let m := listMean (selectMask baseLocs quant)
  quant.map (fun q => 100 * (q / m))

/-! ## Outer-join table assembly (`pd.concat(..., axis='columns')`)

A component's measure series is a list of `(period, value)` pairs with
strictly increasing periods.  `pd.concat` outer-joins the period axes into
one sorted union axis, with an undefined cell (`NaN`, embedded `none`)
where a series lacks that period. -/

/-- The sorted union of the period axes of several series. -/
def unionIndex (frames : List (List (Int × ℚ))) : List Int :=
  List.insertionSort (· ≤ ·) ((frames.flatMap (·.map Prod.fst)).dedup)

/-- `pd.concat(frames, axis='columns')`: one row per union period, one
optional cell per input series. -/
def concatOuter (frames : List (List (Int × ℚ))) : List (Int × List (Option ℚ)) :=
  (unionIndex frames).map (fun p => (p, frames.map (fun f => f.lookup p)))

/-- `.dropna(axis='index')` — pandas' default `how='any'`: keep only the
rows in which every cell is defined. -/
def dropnaAny (tbl : List (Int × List (Option ℚ))) : List (Int × List (Option ℚ)) :=
  tbl.filter (fun r => r.2.all (·.isSome))

/-- `.dropna(axis='index', how='all')`: drop only the rows in which every
cell is undefined. -/
def dropnaAll (tbl : List (Int × List (Option ℚ))) : List (Int × List (Option ℚ)) :=
  tbl.filter (fun r => r.2.any (·.isSome))

/-- `ChainWeighter._set_ctypes_and_data`, data-assembly step
(`edan/nipa/aggr.py` line 171): the real-level and price-index series of the
selected subcomponents are outer-joined into one table which is then passed
through `.dropna(axis='index')` — pandas' default `how='any'`. -/
def set_ctypes_and_data (rdata pdata : List (List (Int × ℚ))) :
    List (Int × List (Option ℚ)) :=
  dropnaAny (concatOuter (rdata ++ pdata))

/-- The assembly step as the specification words it (§4.3 failure cases):
"misaligned period axes are resolved by dropping fully-undefined rows".
Stated from the spec text, to be compared with `set_ctypes_and_data`. -/
def specSetCtypesData (rdata pdata : List (List (Int × ℚ))) :
    List (Int × List (Option ℚ)) :=
  dropnaAll (concatOuter (rdata ++ pdata))

/-! ## Contribution engines (`edan/nipa/features.py`)

The data matrices below are the already-gathered tables `self._data(mtype)`
(one row per period, column 0 the aggregate, one further column per selected
subcomponent); gathering them from the external component graph is out of
scope (§6 of the spec).  `isFlow j` records whether column `j` belongs to a
`FlowComponent` (the source's `self.flows`; `self.stocks` is its pointwise
negation), and `bals` is the source's `self.bals` indicator (`0` stock/flow,
`1` additive balance child, `-1` subtractive balance child). -/

/-- A matrix with the same shape as `shape`, filled entrywise. -/
def matrixOfShape (shape : List (List EFloat)) (f : Nat → Nat → EFloat) :
    List (List EFloat) :=
  (List.range shape.length).map (fun t =>
    (List.range ((shape.getD t []).length)).map (fun j => f t j))

/-- One entry of the `real_chg` array of `_RealContribution.shares`
(`edan/nipa/features.py` lines 226–229): `np.full(real.shape, np.nan)`,
then `real_chg[1:, stocks] = real[1:] - real[:-1]` and
`real_chg[2:, flows] = (real[2:] - real[1:-1]) - (real[1:-1] - real[:-2])`. -/
def realChgEntry (real : List (List EFloat)) (isFlow : List Bool)
    (t j : Nat) : EFloat :=
  let r := fun t j => (real.getD t []).getD j .nan
  if isFlow.getD j false then
    if 2 ≤ t then
      EFloat.sub (EFloat.sub (r t j) (r (t-1) j)) (EFloat.sub (r (t-1) j) (r (t-2) j))
    else .nan
  else
    if 1 ≤ t then EFloat.sub (r t j) (r (t-1) j) else .nan

/-- The `real_chg` array of `_RealContribution.shares`. -/
def realChg (real : List (List EFloat)) (isFlow : List Bool) :
    List (List EFloat) :=
  matrixOfShape real (realChgEntry real isFlow)

/-- Leading additive balance-child positions: `bal == 1` where the previous
indicator (`np.hstack((0, bal[:-1]))`) is not `1`
(`_create_stock_balance_indices`). -/
def isLeadBal (bals : List Int) (i : Nat) : Bool :=
  bals.getD i 0 == 1 && (if i = 0 then (0 : Int) else bals.getD (i-1) 0) != 1

/-- The sorted output positions (`all_outs`): stock/flow columns together
with each balance component's leading child. -/
def outPositions (bals : List Int) : List Nat :=
  (List.range bals.length).filter (fun i => bals.getD i 0 == 0 || isLeadBal bals i)

/-- The right border of the balance group led by `i`
(`_create_balance_groups`): the smallest stock-or-leading position after
`i`, with `len(bal)` as the ceiling. -/
def rightBorder (bals : List Int) (i : Nat) : Nat :=
  ((List.range (bals.length + 1)).filter (fun x =>
    i < x && (x == bals.length || bals.getD x 0 == 0 || isLeadBal bals x))).headD bals.length

/-- `np.sum(arr[:, l:r], axis=1)` for one row. -/
def sliceSum (row : List EFloat) (l r : Nat) : EFloat :=
  EFloat.esum ((row.drop l).take (r - l))

/-- `_Contribution._apply_balances` with the default aggregator: copy
stock/flow columns through, and replace each balance component's children by
the sum over the group; untouched when there is no balance column. -/
def applyBalances (bals : List Int) (arr : List (List EFloat)) :
    List (List EFloat) :=
  if bals.all (· = 0) then arr
  else arr.map (fun row => (outPositions bals).map (fun i =>
    if bals.getD i 0 == 0 then row.getD i .nan else sliceSum row i (rightBorder bals i)))

/-- `_RealContribution.shares` (`edan/nipa/features.py` lines 208–251): the
contribution-share matrix computed from the gathered real and nominal data
matrices. -/
def realShares (rdf ndf : List (List EFloat)) (isFlow : List Bool)
    (bals : List Int) : List (List EFloat) :=
  let r := fun t j => (rdf.getD t []).getD j .nan
  let n := fun t j => (ndf.getD t []).getD j .nan
  let rc := fun t j => ((realChg rdf isFlow).getD t []).getD j .nan
  let defl := fun t j => if 1 ≤ t then EFloat.div (n (t-1) j) (r (t-1) j) else .nan
  let nomchg := fun t j =>
    let x := EFloat.mul (defl t j) (rc t j)
    if x = .finite 0 then .nan else x
  let shares1 := fun t j =>
    if j = 0 then EFloat.finite 1 else EFloat.div (nomchg t j) (nomchg t 0)
  let shares2 := fun t j => if shares1 t j = .nan then .finite 0 else shares1 t j
  let shares3 := fun t j =>
    if bals.getD j 0 == -1 then EFloat.neg (shares2 t j) else shares2 t j
  applyBalances bals (matrixOfShape rdf shares3)

/-- The aggregate component as the contribution engines see it: its code,
whether it is elemental (no subcomponents), and its own real and price
series (period axis and values). -/
structure NIPAAgg where
  code : String
  elemental : Bool
  realIndex : List Period
  realValues : List EFloat
  priceIndex : List Period
  priceValues : List EFloat

/-- The pandas object a contribution compute returns: a named `Series` for
an elemental aggregate, a `DataFrame` otherwise. -/
inductive ContrResult where
  | series (name : String) (index : List Period) (values : List EFloat)
  | frame (columns : List String) (index : List Period) (values : List (List EFloat))
deriving DecidableEq, Repr

/-- The `TypeError` that `Component.disaggregate` raises on an elemental
component (`edan/core/components.py` lines 153–154, identically
`edan/aggregates/components.py`): a component with no subcomponents cannot
be disaggregated.  The message interpolates `repr(self)`, which carries the
component's class name and code. -/
def disaggregateTypeError (agg : NIPAAgg) : String :=
  "TypeError: NIPAComponent(" ++ agg.code ++ ") is elemental & cannot be disaggregated"

/-- The real-growth contribution computation along its actual call path:
`Contribution.__call__` constructs `_RealContribution(agg, subs, level)` and
then calls its `compute`.  `_Contribution.__init__` (`edan/nipa/features.py`
line 43) immediately runs `_gather_subs_collect_ctypes`, whose iteration
over `self.comps` evaluates `self.subs = agg.disaggregate(...)`, and
`disaggregate` raises `TypeError` on every elemental component — before
`compute` can run, so the all-ones elemental branch inside
`_RealContribution.compute` (features.py lines 186–193) is unreachable dead
code.  For a non-elemental aggregate, `compute`'s own `agg.elemental` test
is false and the share matrix is scaled row-wise by the aggregate growth
rate; the growth-rate transform is the external collaborator of §6, passed
as a function. -/
def realContribution (agg : NIPAAgg) (transform : List EFloat → List EFloat)
    (codes : List String) (rdf ndf : List (List EFloat)) (isFlow : List Bool)
    (bals : List Int) : Except String ContrResult :=
  if agg.elemental then
    .error (disaggregateTypeError agg)
  else
    let aggGrowth := transform agg.realValues
    let shares := realShares rdf ndf isFlow bals
    let contrs := List.zipWith (fun srow g => srow.map (fun s => EFloat.mul s g))
      shares aggGrowth
    .ok (.frame codes agg.realIndex contrs)

/-- Column-wise `np.cumprod(..., axis=0)`. -/
def colCumprod (m : List (List EFloat)) : List (List EFloat) :=
  (m.transpose.map cumprod).transpose

/-- `np.dot` of two rows of extended floats. -/
def dotE (xs ys : List EFloat) : EFloat :=
  EFloat.esum (List.zipWith EFloat.mul xs ys)

/-- `_PriceContribution.weighted_inflation`: period inflation rates weighted
by prior nominal shares of the aggregate, sign-flipped for subtractive
balance children, with a leading NaN row, then balance-aggregated. -/
def weightedInflation (pdf ndf : List (List EFloat)) (bals : List Int) :
    List (List EFloat) :=
  let p := fun t j => (pdf.getD t []).getD j .nan
  let n := fun t j => (ndf.getD t []).getD j .nan
  let infl := fun t j =>
    EFloat.mul (.finite 100) (EFloat.sub (EFloat.div (p t j) (p (t-1) j)) (.finite 1))
  let nomShares := fun t j => EFloat.div (n t j) (n t 0)
  let weighted := fun t j => EFloat.mul (infl t j) (nomShares t j)
  let flipped := fun t j =>
    if bals.getD j 0 == -1 then EFloat.neg (weighted t j) else weighted t j
  applyBalances bals (matrixOfShape pdf (fun t j => if t = 0 then .nan else flipped t j))

/-- `_PriceContribution.initial_price_index`: first-observation price levels,
with each balance component's children replaced by their nominal-weighted
average price. -/
def initialPriceIndex (pdf ndf : List (List EFloat)) (bals : List Int) :
    List EFloat :=
  let nom := ndf.headD []
  let price := pdf.headD []
  (outPositions bals).map (fun i =>
    if bals.getD i 0 == 0 then price.getD i .nan
    else
      let nomGrp := (nom.drop i).take (rightBorder bals i - i)
      let priceGrp := (price.drop i).take (rightBorder bals i - i)
      EFloat.div (dotE nomGrp priceGrp) (EFloat.esum nomGrp))

/-- The price/inflation contribution computation along its actual call
path: as with the real variant, `_Contribution.__init__` evaluates
`agg.disaggregate(...)`, which raises `TypeError` on every elemental
aggregate before `_PriceContribution.compute` runs — so the elemental
branch of `compute` (`edan/nipa/features.py` lines 264–270) is unreachable
dead code.  (Were it reached, it would itself fail: it builds the result
with `name=self.obj.code`, and `obj` is never assigned on `_Contribution`
instances.)  For a non-elemental aggregate the weighted inflation rates are
compounded into an implied price path and the external transform is
applied. -/
def priceContribution (agg : NIPAAgg)
    (transform : List (List EFloat) → List (List EFloat)) (codes : List String)
    (pdf ndf : List (List EFloat)) (bals : List Int) :
    Except String ContrResult :=
  if agg.elemental then
    .error (disaggregateTypeError agg)
  else
    let rates := weightedInflation pdf ndf bals
    let rates1 := match rates with
      | [] => []
      | r0 :: rest => (r0.map (fun _ => EFloat.finite 1)) :: rest
    let grow := rates1.map (fun row =>
      row.map (fun x => EFloat.add (.finite 1) (EFloat.div x (.finite 100))))
    let rpath := colCumprod grow
    let prices := rpath.map (fun row => List.zipWith EFloat.mul row (initialPriceIndex pdf ndf bals))
    .ok (.frame codes agg.priceIndex (transform prices))


/-! ## Helper lemmas -/

namespace EFloat

@[simp] lemma hmul_def (a b : EFloat) : a * b = EFloat.mul a b := rfl

@[simp] lemma mul_finite_finite (a b : ℚ) :
    EFloat.mul (.finite a) (.finite b) = .finite (a * b) := rfl

@[simp] lemma add_finite_finite (a b : ℚ) :
    EFloat.add (.finite a) (.finite b) = .finite (a + b) := rfl

@[simp] lemma sub_finite_finite (a b : ℚ) :
    EFloat.sub (.finite a) (.finite b) = .finite (a - b) := by
  simp [EFloat.sub, EFloat.neg, EFloat.add, sub_eq_add_neg]

@[simp] lemma div_finite_finite (a b : ℚ) :
    EFloat.div (.finite a) (.finite b) = trueDivide a b := rfl

lemma trueDivide_of_ne (a b : ℚ) (h : b ≠ 0) :
    trueDivide a b = .finite (a / b) := by
  simp [trueDivide, h]

lemma trueDivide_pos_zero (a : ℚ) (h : 0 < a) :
    trueDivide a 0 = .inf := by
  simp [trueDivide, ne_of_gt h, h]

lemma mul_finite_inf (a : ℚ) (h : 0 < a) :
    EFloat.mul (.finite a) .inf = .inf := by
  simp [EFloat.mul, ne_of_gt h, h]

lemma div_inf_finite (b : ℚ) (h : ¬ b < 0) :
    EFloat.div .inf (.finite b) = .inf := by
  simp [EFloat.div, h]

@[simp] lemma esum_nil : esum [] = .finite 0 := rfl

@[simp] lemma esum_cons (x : EFloat) (xs : List EFloat) :
    esum (x :: xs) = (xs.foldl EFloat.add (EFloat.add (.finite 0) x)) := rfl

end EFloat

/-! ## Theorems settling the claims -/

/-- C2: the claim says each Jevons link relative is the geometric mean of
the item price relatives, with link exactly `1.10` on the uniform-10%-rise
two-item scenario `[1,2] → [1.1,2.2]`.  The source instead raises the
product of the relatives to the *power* `arr.shape[1]`
(`np.power(prod, arr.shape[1])`, `edan/indices.py` line 1332) rather than
taking the `arr.shape[1]`-th root: on the scenario it produces
`1.21² = 1.4641`, not `1.10`. -/
theorem jevons_power_bug_eval :
    jevonsChainLinks [[1, 2], [11/10, 22/10]] = [14641/10000] ∧
    (14641/10000 : ℚ) ≠ 11/10 := by
  constructor
  · norm_num [jevonsChainLinks, adjacentRows, numCols]
  · norm_num

/-- C3: the claim says each CSWD relative is `sqrt(Carli × HarmonicMean)` in
both modes.  In direct (fixed-base) mode the source omits the square root
(`edan/indices.py` lines 1421–1437): on prices `[[1,1],[2,2]]` with base
year 2012 (matching exactly the first row) the direct CSWD value at the
second period is `400`, while the Carli and harmonic-mean direct values are
both `200`, and the claimed value would be `sqrt(200·200) = 200 ≠ 400`. -/
theorem cswd_direct_missing_sqrt_eval :
    cswdDirect [[1, 1], [2, 2]] [⟨2012, 0⟩, ⟨2013, 0⟩] (.year 2012) = .ok [100, 400] ∧
    carliDirect [[1, 1], [2, 2]] [⟨2012, 0⟩, ⟨2013, 0⟩] (.year 2012) = .ok [100, 200] ∧
    harmonicMeanDirect [[1, 1], [2, 2]] [⟨2012, 0⟩, ⟨2013, 0⟩] (.year 2012) = .ok [100, 200] ∧
    (400 : ℝ) ≠ Real.sqrt (200 * 200) := by
  have hloc : locate_base_periods (.year 2012) [⟨2012, 0⟩, ⟨2013, 0⟩] = .ok [true, false] := by
    simp [locate_base_periods, baseMatches]
  refine ⟨?_, ?_, ?_, ?_⟩
  · rw [cswdDirect, hloc]
    simp [selectMask, colMeans, numCols, listMean, List.range_succ]
    norm_num
  · rw [carliDirect, hloc]
    simp [selectMask, colMeans, numCols, listMean, List.range_succ]
    norm_num
  · rw [harmonicMeanDirect, hloc]
    simp [selectMask, colMeans, numCols, listMean, List.range_succ]
    norm_num
  · rw [Real.sqrt_mul_self (by norm_num : (0:ℝ) ≤ 200)]
    norm_num

/-- C4 counterexample: on the two-period Dutot panel `[[1,-1],[1,1]]` (whose
first-row sum is zero) with base year 2012 matching the first period, the
chained Dutot computation does not raise: it returns a series whose second
entry is `+inf`, silently propagated from `np.true_divide(2, 0)`, refuting
the claim that a zero aggregate denominator is a hard failure. -/
theorem dutot_zero_denominator_counterexample :
    dutotChainedE [[1, -1], [1, 1]] [⟨2012, 0⟩, ⟨2013, 0⟩] (.year 2012)
      = .ok [.finite 100, .inf] ∧
    EFloat.inf ∈ [EFloat.finite 100, EFloat.inf] := by
  have hloc : locate_base_periods (.year 2012) [⟨2012, 0⟩, ⟨2013, 0⟩] = .ok [true, false] := by
    simp [locate_base_periods, baseMatches]
  refine ⟨?_, by simp⟩
  rw [dutotChainedE]
  simp [hloc, adjacentRows, cumprod, cumprodAux, selectMask, EFloat.emean,
    EFloat.trueDivide_pos_zero, EFloat.trueDivide_of_ne, EFloat.mul_finite_inf,
    EFloat.div_inf_finite, EFloat.trueDivide]

/-- C4 amended: a zero aggregate denominator is not detected — the division
yields an infinity that propagates silently into the returned series.  For
every two-period Dutot panel whose first-row sum is zero and second-row sum
is positive, with the base year matching exactly the first period, the
chained computation returns `.ok [100, +inf]` and raises nothing. -/
theorem dutot_zero_denominator_propagates (p0 p1 : List ℚ)
    (h0 : p0.sum = 0) (h1 : 0 < p1.sum) :
    dutotChainedE [p0, p1] [⟨2012, 0⟩, ⟨2013, 0⟩] (.year 2012)
      = .ok [.finite 100, .inf] := by
  have hloc : locate_base_periods (.year 2012) [⟨2012, 0⟩, ⟨2013, 0⟩] = .ok [true, false] := by
    simp [locate_base_periods, baseMatches]
  rw [dutotChainedE]
  simp [hloc, adjacentRows, cumprod, cumprodAux, selectMask, EFloat.emean, h0,
    EFloat.trueDivide_pos_zero _ h1, EFloat.mul_finite_inf _ (by norm_num : (0:ℚ) < 1),
    EFloat.mul_finite_inf _ (by norm_num : (0:ℚ) < 100),
    EFloat.div_inf_finite _ (by norm_num : ¬ (1:ℚ) < 0),
    EFloat.trueDivide_of_ne _ _ (by norm_num : (1:ℚ) ≠ 0)]

/-- C4 witness: `dutot_zero_denominator_propagates` at `p0 = [2,-2]`,
`p1 = [3,1]`. -/
theorem dutot_zero_denominator_propagates_witness :
    ([2, -2] : List ℚ).sum = 0 ∧ (0 : ℚ) < ([3, 1] : List ℚ).sum ∧
    dutotChainedE [[2, -2], [3, 1]] [⟨2012, 0⟩, ⟨2013, 0⟩] (.year 2012)
      = .ok [.finite 100, .inf] :=
  ⟨by norm_num, by norm_num,
    dutot_zero_denominator_propagates [2, -2] [3, 1] (by norm_num) (by norm_num)⟩

/-- C8: when no observation of the period axis falls in the requested base
year/period, `locate_base_periods` fails with the error message that names
the missing base (see `noBaseMsg`), and the index computation that calls it
(here the chained Dutot constructor) propagates that error and returns no
series. -/
theorem missing_base_period_fails (base : BasePeriod) (index : List Period)
    (rows : List (List ℚ)) (h : ∀ p ∈ index, baseMatches base p = false) :
    locate_base_periods base index = .error (noBaseMsg base) ∧
    dutotChainedE rows index base = .error (noBaseMsg base) := by
  have hany : (index.map (baseMatches base)).any id = false := by
    simp only [List.any_eq_false]
    intro b hb
    obtain ⟨p, hp, rfl⟩ := List.mem_map.mp hb
    simp [h p hp]
  have hloc : locate_base_periods base index = .error (noBaseMsg base) := by
    simp [locate_base_periods, hany]
  exact ⟨hloc, by rw [dutotChainedE, hloc]⟩

/-- C8 witness: `missing_base_period_fails` for base year 2012 against a
one-period axis lying in 2000. -/
theorem missing_base_period_fails_witness :
    (∀ p ∈ [Period.mk 2000 0], baseMatches (.year 2012) p = false) ∧
    locate_base_periods (.year 2012) [Period.mk 2000 0]
      = .error (noBaseMsg (.year 2012)) ∧
    dutotChainedE [[1]] [Period.mk 2000 0] (.year 2012)
      = .error (noBaseMsg (.year 2012)) :=
  ⟨by intro p hp; simp at hp; simp [hp, baseMatches],
    missing_base_period_fails (.year 2012) [Period.mk 2000 0] [[1]]
      (by intro p hp; simp at hp; simp [hp, baseMatches])⟩

/-- C9 counterexample: two subcomponents whose real (periods `{0,1}` vs
`{1,2}`) and price series are misaligned.  The claim says every period at
which at least one item is defined is kept (periods 0, 1 and 2, with
partial-row missing values propagating); the source's
`.dropna(axis='index')` (pandas default `how='any'`) instead keeps only
period 1, the one fully-defined row. -/
theorem set_ctypes_dropna_counterexample :
    set_ctypes_and_data [[(0,1),(1,2)],[(1,3),(2,4)]] [[(0,5),(1,6)],[(1,7),(2,8)]]
      = [(1, [some 2, some 3, some 6, some 7])] ∧
    specSetCtypesData [[(0,1),(1,2)],[(1,3),(2,4)]] [[(0,5),(1,6)],[(1,7),(2,8)]]
      = [(0, [some 1, none, some 5, none]),
         (1, [some 2, some 3, some 6, some 7]),
         (2, [none, some 4, none, some 8])] ∧
    set_ctypes_and_data [[(0,1),(1,2)],[(1,3),(2,4)]] [[(0,5),(1,6)],[(1,7),(2,8)]]
      ≠ specSetCtypesData [[(0,1),(1,2)],[(1,3),(2,4)]] [[(0,5),(1,6)],[(1,7),(2,8)]] :=
  ⟨by decide, by decide, by decide⟩

/-- C9 amended: the chain-weighting data assembly does not fail on
misaligned period axes, but it keeps exactly the periods of the outer-joined
table at which *every* item's real level and price index are defined — any
period with at least one missing value is dropped, so no partial-row missing
values remain. -/
theorem set_ctypes_keeps_exactly_complete_rows
    (rdata pdata : List (List (Int × ℚ))) (row : Int × List (Option ℚ)) :
    row ∈ set_ctypes_and_data rdata pdata ↔
      row ∈ concatOuter (rdata ++ pdata) ∧ ∀ c ∈ row.2, c.isSome = true := by
  simp [set_ctypes_and_data, dropnaAny, List.mem_filter, List.all_eq_true]

/-- Indexing a `(List.range n).map f` list inside its range. -/
lemma rangeMap_getD {α : Type} (n i : Nat) (f : Nat → α) (d : α) (h : i < n) :
    ((List.range n).map f).getD i d = f i := by
  rw [List.getD_eq_getElem _ _ (by simpa using h)]
  simp

/-- Indexing a `matrixOfShape` inside its shape. -/
lemma matrixOfShape_entry (shape : List (List EFloat)) (f : Nat → Nat → EFloat)
    (t j : Nat) (ht : t < shape.length) (hj : j < (shape.getD t []).length) :
    ((matrixOfShape shape f).getD t []).getD j .nan = f t j := by
  rw [matrixOfShape, rangeMap_getD _ _ _ _ ht, rangeMap_getD _ _ _ _ hj]

/-- C5: in `_RealContribution.shares`, the real change used at period `t`
for a stock-kind column (`isFlow = false`) is `real(t) − real(t−1)` (for
`t ≥ 1`), and for a flow-kind column it is the second difference
`(real(t) − real(t−1)) − (real(t−1) − real(t−2))` (for `t ≥ 2`), whenever
the entries involved are finite. -/
theorem real_chg_formulas (real : List (List EFloat)) (isFlow : List Bool)
    (t j : Nat) (ht : t < real.length) (hj : j < (real.getD t []).length) :
    (isFlow.getD j false = false → 1 ≤ t → ∀ x y : ℚ,
      (real.getD t []).getD j .nan = .finite x →
      (real.getD (t-1) []).getD j .nan = .finite y →
      ((realChg real isFlow).getD t []).getD j .nan = .finite (x - y)) ∧
    (isFlow.getD j false = true → 2 ≤ t → ∀ x y z : ℚ,
      (real.getD t []).getD j .nan = .finite x →
      (real.getD (t-1) []).getD j .nan = .finite y →
      (real.getD (t-2) []).getD j .nan = .finite z →
      ((realChg real isFlow).getD t []).getD j .nan
        = .finite ((x - y) - (y - z))) := by
  constructor
  · intro hflow h1 x y hx hy
    rw [realChg, matrixOfShape_entry _ _ _ _ ht hj, realChgEntry]
    simp only [List.getD, List.get?_eq_getElem?] at hx hy hflow
    simp [hflow, h1, hx, hy]
  · intro hflow h2 x y z hx hy hz
    rw [realChg, matrixOfShape_entry _ _ _ _ ht hj, realChgEntry]
    simp only [List.getD, List.get?_eq_getElem?] at hx hy hz hflow
    simp [hflow, h2, hx, hy, hz]

/-- C5 witness: `real_chg_formulas` on the flow-kind scenario
`[100, 102, 101]`, whose third-period real change is
`(101−102) − (102−100) = −3`, not the one-period difference `−1`. -/
theorem real_chg_formulas_witness :
    ((realChg [[.finite 100], [.finite 102], [.finite 101]] [true]).getD 2 []).getD 0 .nan
      = .finite (-3) := by
  have h := (real_chg_formulas [[.finite 100], [.finite 102], [.finite 101]] [true]
    2 0 (by norm_num) (by norm_num)).2 (by norm_num) (by norm_num)
    101 102 100 (by norm_num) (by norm_num) (by norm_num)
  rw [h]
  norm_num

/-- C6: the claim (and the elemental branches written inside both compute
methods, and the sibling `Share.compute`, which tests `elemental` first and
does return ones) says an elemental aggregate yields a trivial all-ones
column.  The program instead raises before either `compute` runs:
`_Contribution.__init__` evaluates `agg.disaggregate(...)`, which throws
`TypeError` for every elemental component — so neither the real-growth nor
the price/inflation variant returns the all-ones column. -/
theorem elemental_contribution_raises (agg : NIPAAgg) (h : agg.elemental = true)
    (tf : List EFloat → List EFloat) (tf2 : List (List EFloat) → List (List EFloat))
    (codes : List String) (rdf ndf pdf ndf2 : List (List EFloat))
    (isFlow : List Bool) (bals : List Int) :
    realContribution agg tf codes rdf ndf isFlow bals
      = .error (disaggregateTypeError agg) ∧
    priceContribution agg tf2 codes pdf ndf2 bals
      = .error (disaggregateTypeError agg) := by
  constructor
  · rw [realContribution, if_pos h]
  · rw [priceContribution, if_pos h]

/-- C6 witness: `elemental_contribution_raises` on a concrete two-period
elemental aggregate. -/
theorem elemental_contribution_raises_witness :
    (NIPAAgg.mk "x" true [⟨2020, 0⟩, ⟨2021, 0⟩] [.finite 3, .finite 4]
        [⟨2020, 0⟩, ⟨2021, 0⟩] [.finite 1, .finite 2]).elemental = true ∧
    realContribution
        (NIPAAgg.mk "x" true [⟨2020, 0⟩, ⟨2021, 0⟩] [.finite 3, .finite 4]
          [⟨2020, 0⟩, ⟨2021, 0⟩] [.finite 1, .finite 2]) id ["x"] [] [] [] []
      = .error (disaggregateTypeError
          (NIPAAgg.mk "x" true [⟨2020, 0⟩, ⟨2021, 0⟩] [.finite 3, .finite 4]
            [⟨2020, 0⟩, ⟨2021, 0⟩] [.finite 1, .finite 2])) ∧
    priceContribution
        (NIPAAgg.mk "x" true [⟨2020, 0⟩, ⟨2021, 0⟩] [.finite 3, .finite 4]
          [⟨2020, 0⟩, ⟨2021, 0⟩] [.finite 1, .finite 2]) id ["x"] [] [] []
      = .error (disaggregateTypeError
          (NIPAAgg.mk "x" true [⟨2020, 0⟩, ⟨2021, 0⟩] [.finite 3, .finite 4]
            [⟨2020, 0⟩, ⟨2021, 0⟩] [.finite 1, .finite 2])) :=
  ⟨rfl,
    (elemental_contribution_raises
      (NIPAAgg.mk "x" true [⟨2020, 0⟩, ⟨2021, 0⟩] [.finite 3, .finite 4]
        [⟨2020, 0⟩, ⟨2021, 0⟩] [.finite 1, .finite 2]) rfl id id ["x"] [] [] [] [] [] []).1,
    (elemental_contribution_raises
      (NIPAAgg.mk "x" true [⟨2020, 0⟩, ⟨2021, 0⟩] [.finite 3, .finite 4]
        [⟨2020, 0⟩, ⟨2021, 0⟩] [.finite 1, .finite 2]) rfl id id ["x"] [] [] [] [] [] []).2⟩

/-- C10: the base year anchoring the chain-weighted real level
(`ChainWeighter._chain`), the real-level pipeline (`compute_real_level`) and
the quantity index (`compute_quantity_index`) is the hard-coded calendar
year 2012: on every input each source function coincides with its
base-year-generalized counterpart evaluated at 2012, and none of the
source's parameters (`aggregate_nipa` passes only codes, names and data)
can select any other year. -/
theorem aggregate_base_year_always_2012 (years : List Int)
    (real price : List (List ℝ)) (weights : List ℝ) (nominal priceSeries : List ℝ) :
    chainWeighterChain years real weights
      = chainWeighterChainAt 2012 years real weights ∧
    compute_real_level years real price
      = compute_real_level_at 2012 years real price ∧
    compute_quantity_index years nominal priceSeries
      = compute_quantity_index_at 2012 years nominal priceSeries :=
  ⟨rfl, rfl, rfl⟩

/-- C1 counterexample: on the two-period panel with real levels
`[[1,1],[3,1]]` and price indices `[[1,1],[1,2]]`, the source's chain
weight at the second period is `sqrt((5/3)·(4/2)) = sqrt(10/3)` while the
specification's formulas give `sqrt((5/4)·(3/2)) = sqrt(15/8)`: the claimed
per-period weight formula does not match `_compute_chained_weights`. -/
theorem chained_weights_spec_counterexample :
    compute_chained_weights [[1, 1], [3, 1]] [[1, 1], [1, 2]]
      ≠ specChainedWeights [[1, 1], [3, 1]] [[1, 1], [1, 2]] := by
  have hc : compute_chained_weights [[1, 1], [3, 1]] [[1, 1], [1, 2]]
      = [1, Real.sqrt (10/3)] := by
    norm_num [compute_chained_weights, adjacentRows, sumProd]
  have hs : specChainedWeights [[1, 1], [3, 1]] [[1, 1], [1, 2]]
      = [1, Real.sqrt (15/8)] := by
    norm_num [specChainedWeights, adjacentRows, sumProd]
  intro h
  rw [hc, hs] at h
  have h2 : Real.sqrt (10/3) = Real.sqrt (15/8) := by
    simpa using h
  have h3 : (10/3 : ℝ) = 15/8 :=
    (Real.sqrt_inj (by norm_num) (by norm_num)).mp h2
  norm_num at h3

/-- Indexing a `List.zipWith` inside both lists' ranges. -/
lemma zipWith_getD {α β γ : Type} (f : α → β → γ) (as : List α) (bs : List β)
    (i : Nat) (da : α) (db : β) (d : γ) (h1 : i < as.length) (h2 : i < bs.length) :
    (List.zipWith f as bs).getD i d = f (as.getD i da) (bs.getD i db) := by
  rw [List.getD_eq_getElem _ _ (by rw [List.length_zipWith]; omega),
    List.getElem_zipWith, List.getD_eq_getElem _ _ h1, List.getD_eq_getElem _ _ h2]

/-- `getD` through `List.tail`. -/
lemma tail_getD {α : Type} (xs : List α) (i : Nat) (d : α) :
    xs.tail.getD i d = xs.getD (i+1) d := by
  cases xs <;> simp

/-- Indexing the consecutive-period pairs. -/
lemma adjacentRows_getD {α : Type} (xs : List α) (i : Nat) (d1 d2 : α)
    (h : i + 1 < xs.length) :
    (adjacentRows xs).getD i (d1, d2) = (xs.getD i d1, xs.getD (i+1) d2) := by
  rw [adjacentRows, List.zip]
  rw [zipWith_getD Prod.mk xs xs.tail i d1 d2 (d1, d2) (by omega)
    (by rw [List.length_tail]; omega)]
  rw [tail_getD]

/-- C1 amended: in `_compute_chained_weights` the weight at the first
period is `1`, and for every aligned panel and every period `t+1` the
weight is `sqrt(paasche · laspeyres)` with the *quantity-form* relatives
`paasche = Σ(real_{t+1}·price_{t+1}) / Σ(real_t·price_{t+1})` and
`laspeyres = Σ(real_{t+1}·price_t) / Σ(real_t·price_t)` — the reference
row moves in the *real* (quantity) factor, not in the price factor as the
specification wrote it. -/
theorem compute_chained_weights_formula (real price : List (List ℝ))
    (hlen : price.length = real.length) (t : Nat) (ht : t + 1 < real.length) :
    (compute_chained_weights real price).getD 0 0 = 1 ∧
    (compute_chained_weights real price).getD (t+1) 0 =
      Real.sqrt ((sumProd (real.getD (t+1) []) (price.getD (t+1) []) /
                  sumProd (real.getD t []) (price.getD (t+1) [])) *
                 (sumProd (real.getD (t+1) []) (price.getD t []) /
                  sumProd (real.getD t []) (price.getD t []))) := by
  constructor
  · rfl
  · rw [compute_chained_weights, List.getD_cons_succ]
    rw [zipWith_getD _ _ _ t ([], []) ([], []) 0
      (by rw [adjacentRows, List.length_zip, List.length_tail]; omega)
      (by rw [adjacentRows, List.length_zip, List.length_tail]; omega)]
    rw [adjacentRows_getD _ _ _ _ ht, adjacentRows_getD _ _ _ _ (by omega)]

/-- C1 witness: `compute_chained_weights_formula` on the two-period panel of
the counterexample, whose second-period weight is `sqrt((5/3)·(4/2))`. -/
theorem compute_chained_weights_formula_witness :
    ([[1, 1], [1, 2]] : List (List ℝ)).length = ([[1, 1], [3, 1]] : List (List ℝ)).length ∧
    0 + 1 < ([[1, 1], [3, 1]] : List (List ℝ)).length ∧
    (compute_chained_weights [[1, 1], [3, 1]] [[1, 1], [1, 2]]).getD 0 0 = 1 ∧
    (compute_chained_weights [[1, 1], [3, 1]] [[1, 1], [1, 2]]).getD 1 0
      = Real.sqrt ((5/3 : ℝ) * (4/2)) := by
  have h := compute_chained_weights_formula [[1, 1], [3, 1]] [[1, 1], [1, 2]]
    rfl 0 (by norm_num)
  refine ⟨rfl, by norm_num, h.1, ?_⟩
  rw [h.2]
  norm_num [sumProd]

/-- A dot product of entrywise-nonnegative rows is nonnegative. -/
lemma sumProd_nonneg {xs ys : List ℝ} (hx : ∀ a ∈ xs, 0 ≤ a) (hy : ∀ b ∈ ys, 0 ≤ b) :
    0 ≤ sumProd xs ys := by
  induction xs generalizing ys with
  | nil => simp [sumProd]
  | cons x xs ih =>
    cases ys with
    | nil => simp [sumProd]
    | cons y ys =>
      rw [sumProd, List.zipWith_cons_cons, List.sum_cons]
      have h1 : 0 ≤ x * y :=
        mul_nonneg (hx x (by simp)) (hy y (by simp))
      have h2 : 0 ≤ sumProd xs ys :=
        ih (fun a ha => hx a (by simp [ha])) (fun b hb => hy b (by simp [hb]))
      rw [sumProd] at h2
      linarith

/-- A dot product of entrywise-positive rows is positive when the first row
is nonempty and not longer than the second. -/
lemma sumProd_pos {xs ys : List ℝ} (hx : ∀ a ∈ xs, 0 < a) (hy : ∀ b ∈ ys, 0 < b)
    (hne : xs ≠ []) (hlen : xs.length ≤ ys.length) : 0 < sumProd xs ys := by
  cases xs with
  | nil => exact absurd rfl hne
  | cons x xs =>
    cases ys with
    | nil => simp at hlen
    | cons y ys =>
      rw [sumProd, List.zipWith_cons_cons, List.sum_cons]
      have h1 : 0 < x * y := mul_pos (hx x (by simp)) (hy y (by simp))
      have h2 : 0 ≤ sumProd xs ys := by
        refine sumProd_nonneg (fun a ha => le_of_lt (hx a (by simp [ha])))
          (fun b hb => le_of_lt (hy b (by simp [hb])))
      rw [sumProd] at h2
      linarith

/-- The geometric mean of two positive reals lies between them. -/
lemma sqrt_geo_mean_between {a b : ℝ} (ha : 0 < a) (hb : 0 < b) :
    min a b ≤ Real.sqrt (a * b) ∧ Real.sqrt (a * b) ≤ max a b := by
  rcases le_total a b with h | h
  · rw [min_eq_left h, max_eq_right h]
    constructor
    · calc a = Real.sqrt (a * a) := (Real.sqrt_mul_self ha.le).symm
        _ ≤ Real.sqrt (a * b) := Real.sqrt_le_sqrt (by nlinarith)
    · calc Real.sqrt (a * b) ≤ Real.sqrt (b * b) := Real.sqrt_le_sqrt (by nlinarith)
        _ = b := Real.sqrt_mul_self hb.le
  · rw [min_eq_right h, max_eq_left h]
    constructor
    · calc b = Real.sqrt (b * b) := (Real.sqrt_mul_self hb.le).symm
        _ ≤ Real.sqrt (a * b) := Real.sqrt_le_sqrt (by nlinarith)
    · calc Real.sqrt (a * b) ≤ Real.sqrt (a * a) := Real.sqrt_le_sqrt (by nlinarith)
        _ = a := Real.sqrt_mul_self ha.le

/-- An in-range `getD` row of a matrix is one of its rows. -/
lemma getD_row_mem {α : Type} (m : List (List α)) (t : Nat) (h : t < m.length) :
    m.getD t [] ∈ m := by
  rw [List.getD_eq_getElem _ _ h]
  exact List.getElem_mem h

/-- C7: for every positive aligned panel and every consecutive period pair,
the chained Fisher link relative equals the square root of the product of
the Paasche and Laspeyres link relatives computed by their own constructors,
and therefore lies weakly between the smaller and the larger of the two. -/
theorem fisher_link_bracketing (price quantity : List (List ℝ)) (k : Nat)
    (hk : 0 < k)
    (hp : ∀ r ∈ price, r.length = k ∧ ∀ x ∈ r, 0 < x)
    (hq : ∀ r ∈ quantity, r.length = k ∧ ∀ x ∈ r, 0 < x)
    (hlen : quantity.length = price.length)
    (t : Nat) (ht : t + 1 < price.length) :
    (fisherChainLinks price quantity).getD t 0
      = Real.sqrt ((paascheChainLinks price quantity).getD t 0 *
                   (laspeyresChainLinks price quantity).getD t 0) ∧
    min ((paascheChainLinks price quantity).getD t 0)
        ((laspeyresChainLinks price quantity).getD t 0)
      ≤ (fisherChainLinks price quantity).getD t 0 ∧
    (fisherChainLinks price quantity).getD t 0
      ≤ max ((paascheChainLinks price quantity).getD t 0)
            ((laspeyresChainLinks price quantity).getD t 0) := by
  have hlzip : t < (adjacentRows price).length := by
    rw [adjacentRows, List.length_zip, List.length_tail]; omega
  have hlzipq : t < (adjacentRows quantity).length := by
    rw [adjacentRows, List.length_zip, List.length_tail]; omega
  have hP : (paascheChainLinks price quantity).getD t 0
      = sumProd (price.getD (t+1) []) (quantity.getD (t+1) []) /
        sumProd (price.getD t []) (quantity.getD (t+1) []) := by
    rw [paascheChainLinks, zipWith_getD _ _ _ t ([], []) ([], []) 0 hlzip hlzipq,
      adjacentRows_getD _ _ _ _ ht, adjacentRows_getD _ _ _ _ (by omega)]
  have hL : (laspeyresChainLinks price quantity).getD t 0
      = sumProd (price.getD (t+1) []) (quantity.getD t []) /
        sumProd (price.getD t []) (quantity.getD t []) := by
    rw [laspeyresChainLinks, zipWith_getD _ _ _ t ([], []) ([], []) 0 hlzip hlzipq,
      adjacentRows_getD _ _ _ _ ht, adjacentRows_getD _ _ _ _ (by omega)]
  have hF : (fisherChainLinks price quantity).getD t 0
      = Real.sqrt ((paascheChainLinks price quantity).getD t 0 *
                   (laspeyresChainLinks price quantity).getD t 0) := by
    rw [fisherChainLinks, zipWith_getD _ _ _ t ([], []) ([], []) 0 hlzip hlzipq,
      adjacentRows_getD _ _ _ _ ht, adjacentRows_getD _ _ _ _ (by omega), hP, hL]
  have hrow : ∀ (m : List (List ℝ)), (∀ r ∈ m, r.length = k ∧ ∀ x ∈ r, 0 < x) →
      ∀ i, i < m.length → (m.getD i []).length = k ∧ ∀ x ∈ m.getD i [], 0 < x :=
    fun m hm i hi => hm _ (getD_row_mem m i hi)
  have hp1 := hrow price hp (t+1) ht
  have hp0 := hrow price hp t (by omega)
  have hq1 := hrow quantity hq (t+1) (by omega)
  have hq0 := hrow quantity hq t (by omega)
  have hSpos : ∀ (xs ys : List ℝ), xs.length = k → ys.length = k →
      (∀ x ∈ xs, 0 < x) → (∀ y ∈ ys, 0 < y) → 0 < sumProd xs ys := by
    intro xs ys hxk hyk hxp hyp
    refine sumProd_pos hxp hyp ?_ (by omega)
    intro hnil
    rw [hnil] at hxk
    simp at hxk
    omega
  have hPpos : 0 < (paascheChainLinks price quantity).getD t 0 := by
    rw [hP]
    exact div_pos (hSpos _ _ hp1.1 hq1.1 hp1.2 hq1.2) (hSpos _ _ hp0.1 hq1.1 hp0.2 hq1.2)
  have hLpos : 0 < (laspeyresChainLinks price quantity).getD t 0 := by
    rw [hL]
    exact div_pos (hSpos _ _ hp1.1 hq0.1 hp1.2 hq0.2) (hSpos _ _ hp0.1 hq0.1 hp0.2 hq0.2)
  obtain ⟨h1, h2⟩ := sqrt_geo_mean_between hPpos hLpos
  exact ⟨hF, by rw [hF]; exact h1, by rw [hF]; exact h2⟩

/-- C7 witness: `fisher_link_bracketing` on a concrete positive two-item,
two-period panel. -/
theorem fisher_link_bracketing_witness :
    ((0:Nat) < 2) ∧
    (∀ r ∈ [[(1:ℝ), 2], [2, 3]], r.length = 2 ∧ ∀ x ∈ r, 0 < x) ∧
    (∀ r ∈ [[(1:ℝ), 1], [4, 5]], r.length = 2 ∧ ∀ x ∈ r, 0 < x) ∧
    ([[(1:ℝ), 1], [4, 5]] : List (List ℝ)).length = ([[(1:ℝ), 2], [2, 3]] : List (List ℝ)).length ∧
    (0 + 1 < ([[(1:ℝ), 2], [2, 3]] : List (List ℝ)).length) ∧
    ((fisherChainLinks [[1, 2], [2, 3]] [[1, 1], [4, 5]]).getD 0 0
      = Real.sqrt ((paascheChainLinks [[1, 2], [2, 3]] [[1, 1], [4, 5]]).getD 0 0 *
                   (laspeyresChainLinks [[1, 2], [2, 3]] [[1, 1], [4, 5]]).getD 0 0) ∧
    min ((paascheChainLinks [[1, 2], [2, 3]] [[1, 1], [4, 5]]).getD 0 0)
        ((laspeyresChainLinks [[1, 2], [2, 3]] [[1, 1], [4, 5]]).getD 0 0)
      ≤ (fisherChainLinks [[1, 2], [2, 3]] [[1, 1], [4, 5]]).getD 0 0 ∧
    (fisherChainLinks [[1, 2], [2, 3]] [[1, 1], [4, 5]]).getD 0 0
      ≤ max ((paascheChainLinks [[1, 2], [2, 3]] [[1, 1], [4, 5]]).getD 0 0)
            ((laspeyresChainLinks [[1, 2], [2, 3]] [[1, 1], [4, 5]]).getD 0 0)) :=
  ⟨by norm_num, by norm_num, by norm_num, rfl, by norm_num,
    fisher_link_bracketing [[1, 2], [2, 3]] [[1, 1], [4, 5]] 2 (by norm_num)
      (by norm_num) (by norm_num) rfl 0 (by norm_num)⟩
